import Mathlib

/-!
Verification of the Android native-activity bridge of FLTK
(src/drivers/Android/Fl_Android_Application.H).

The repository ships only the header: the class declarations, the looper
identifier enumeration and the command enumeration. Those two enumerations
are embedded directly from the source. The behaviour of the bridge
(pipes, lifecycle hooks, screen-buffer guard, timer channel) is declared in
the header but implemented elsewhere, so those operations are modelled from
the specification, as marked on each definition.
-/

namespace FlAndroid

/-- Looper identifier `LOOPER_ID_MAIN` from the anonymous enum of
`Fl_Android_Application` (first enumerator, explicitly `= 1`). -/
def LOOPER_ID_MAIN : Nat := 1

/-- Looper identifier `LOOPER_ID_INPUT` (second enumerator, C auto-increment). -/
def LOOPER_ID_INPUT : Nat := 2

/-- Looper identifier `LOOPER_ID_TIMER` (third enumerator, C auto-increment). -/
def LOOPER_ID_TIMER : Nat := 3

/-- Looper identifier `LOOPER_ID_USER`, the start of user-defined ALooper
identifiers (fourth enumerator, C auto-increment). -/
def LOOPER_ID_USER : Nat := 4

/-- The command vocabulary: the `APP_CMD_...` anonymous enum of
`Fl_Android_Application`, sixteen enumerators in source order. -/
inductive AppCmd where
  | inputChanged
  | initWindow
  | termWindow
  | windowResized
  | windowRedrawNeeded
  | contentRectChanged
  | gainedFocus
  | lostFocus
  | configChanged
  | lowMemory
  | start
  | resume
  | saveState
  | pause
  | stop
  | destroy
deriving DecidableEq, Repr

/-- Numeric value of each `APP_CMD_...` enumerator: the C enum assigns
consecutive values starting at 0. -/
def cmdCode : AppCmd → Nat
  | .inputChanged => 0
  | .initWindow => 1
  | .termWindow => 2
  | .windowResized => 3
  | .windowRedrawNeeded => 4
  | .contentRectChanged => 5
  | .gainedFocus => 6
  | .lostFocus => 7
  | .configChanged => 8
  | .lowMemory => 9
  | .start => 10
  | .resume => 11
  | .saveState => 12
  | .pause => 13
  | .stop => 14
  | .destroy => 15

/-- Decoding a byte read from the command pipe back into a command. -/
def decodeCmd : Nat → Option AppCmd
  | 0 => some .inputChanged
  | 1 => some .initWindow
  | 2 => some .termWindow
  | 3 => some .windowResized
  | 4 => some .windowRedrawNeeded
  | 5 => some .contentRectChanged
  | 6 => some .gainedFocus
  | 7 => some .lostFocus
  | 8 => some .configChanged
  | 9 => some .lowMemory
  | 10 => some .start
  | 11 => some .resume
  | 12 => some .saveState
  | 13 => some .pause
  | 14 => some .stop
  | 15 => some .destroy
  | _ => none

/-- The sixteen commands in the order of the source enumeration. -/
def allCmds : List AppCmd :=
  [.inputChanged, .initWindow, .termWindow, .windowResized, .windowRedrawNeeded,
   .contentRectChanged, .gainedFocus, .lostFocus, .configChanged, .lowMemory,
   .start, .resume, .saveState, .pause, .stop, .destroy]

/-- Conversion of a natural number to the value of the C cast `(int8_t)n`:
reduce mod 256, then reinterpret the top half as negative. -/
def int8OfNat (n : Nat) : Int :=
  ((n % 256 : Nat) : Int) - (if n % 256 < 128 then 0 else 256)

/-- Modelled from the spec: the enumerated activity-state register of the
Lifecycle State component (the implementation behind `pActivityState` is not
in the repository sources; states per spec section 3). -/
inductive ActivityState where
  | created
  | started
  | resumed
  | paused
  | stopped
  | destroyed
deriving DecidableEq, Repr

/-- Modelled from the spec: the shared bridge state behind the static fields
`pActivityState`, `pRunning`, `pDestroyRequested`, `pStateSaved`,
`pNativeWindow` (modelled as the boolean validity of the window handle) and
the locked/unlocked state of the Screen Buffer Guard. -/
structure AppState where
  activityState : ActivityState
  running : Bool
  destroyRequested : Bool
  stateSaved : Bool
  windowBound : Bool
  locked : Bool
deriving DecidableEq, Repr

/-- Modelled from the spec: the state of the bridge right after the
application thread has started its loop (running, nothing destroyed,
no window bound yet, guard unlocked). -/
def initState : AppState :=
  { activityState := .created, running := true, destroyRequested := false,
    stateSaved := false, windowBound := false, locked := false }

/-- The activity state a lifecycle command maps to (spec section 4.1:
`transition` maps command to state per the table in section 3); `none` for
commands that are not lifecycle-state commands. -/
def cmdState : AppCmd → Option ActivityState
  | .start => some .started
  | .resume => some .resumed
  | .pause => some .paused
  | .stop => some .stopped
  | .destroy => some .destroyed
  | _ => none

/-- Modelled from the spec: `Fl_Android_Activity::set_activity_state`
(implementation not in the repository sources) simply overwrites the
activity-state register; out-of-order commands are tolerated, no error is
reported (the function is total and has no error channel). -/
def set_activity_state (s : AppState) (st : ActivityState) : AppState :=
  { s with activityState := st }

/-- Modelled from the spec: `Fl_Android_Application::pre_exec_cmd`
(implementation not in the repository sources): the state update needed
before user code runs. Window-init marks the window handle valid; lifecycle
commands overwrite the activity state; destroy sets `destroyRequested`
unconditionally (spec sections 4.1 and 4.2). -/
def pre_exec_cmd (s : AppState) (c : AppCmd) : AppState :=
  match c with
  | .initWindow => { s with windowBound := true }
  | .start => set_activity_state s .started
  | .resume => set_activity_state s .resumed
  | .pause => set_activity_state s .paused
  | .stop => set_activity_state s .stopped
  | .destroy => { set_activity_state s .destroyed with destroyRequested := true }
  | _ => s

/-- Modelled from the spec: `Fl_Android_Application::post_exec_cmd`
(implementation not in the repository sources): cleanup after user code ran.
Window-term relinquishes the window handle only after the application thread
processed the command (spec sections 4.2 and 8); save-state marks the blob
as held. -/
def post_exec_cmd (s : AppState) (c : AppCmd) : AppState :=
  match c with
  | .termWindow => { s with windowBound := false }
  | .saveState => { s with stateSaved := true }
  | _ => s

/-- One fully processed command: pre hook, user dispatch (which does not
mutate the bridge state), post hook. -/
def execCmd (s : AppState) (c : AppCmd) : AppState :=
  post_exec_cmd (pre_exec_cmd s c) c

/-- Modelled from the spec: the poll loop consuming a sequence of commands.
Once `destroyRequested` is set, further commands are drained from the pipe
but not dispatched to user code (spec section 4.1). -/
def runCmds (s : AppState) : List AppCmd → AppState
  | [] => s
  | c :: rest =>
    if s.destroyRequested then runCmds s rest
    else runCmds (execCmd s c) rest

/-- Modelled from the spec: the subsequence of commands actually dispatched
to user code by the poll loop (commands drained after `destroyRequested` are
not dispatched). -/
def dispatched (s : AppState) : List AppCmd → List AppCmd
  | [] => []
  | c :: rest =>
    if s.destroyRequested then dispatched s rest
    else c :: dispatched (execCmd s c) rest

/-- Modelled from the spec: `Fl_Android_Activity::write_cmd` (implementation
not in the repository sources) writes the one-byte command code to the write
end of the command pipe; the pipe is a FIFO byte channel. -/
def write_cmd (pipe : List Nat) (c : AppCmd) : List Nat :=
  pipe ++ [cmdCode c]

/-- Modelled from the spec: `Fl_Android_Application::read_cmd`
(implementation not in the repository sources) reads one byte from the read
end of the command pipe; on an empty/closed pipe it reports that no command
is available. -/
def read_cmd (pipe : List Nat) : Option (Nat × List Nat) :=
  match pipe with
  | [] => none
  | b :: rest => some (b, rest)

/-- The platform thread writing a whole sequence of commands, in order. -/
def writeAll (pipe : List Nat) (cs : List AppCmd) : List Nat :=
  cs.foldl write_cmd pipe

/-- The application thread repeatedly calling `read_cmd` until the pipe is
empty, decoding each byte. -/
def readAllCmds (pipe : List Nat) : List AppCmd :=
  match pipe with
  | [] => []
  | _ :: rest =>
    match read_cmd pipe with
    | none => readAllCmds rest
    | some (b, _) =>
      match decodeCmd b with
      | some c => c :: readAllCmds rest
      | none => readAllCmds rest

/-- Result of a Screen Buffer Guard `lock()` attempt (spec section 4.4):
either the buffer view is acquired or the surface is unavailable. -/
inductive LockResult where
  | ok
  | surfaceUnavailable
deriving DecidableEq, Repr

/-- Modelled from the spec: `Fl_Android_Application::lock_screen`
(implementation not in the repository sources): fails with
`SurfaceUnavailable` and changes nothing if no valid window is bound,
otherwise acquires the buffer (spec section 4.4). -/
def lock_screen (s : AppState) : LockResult × AppState :=
  if s.windowBound then (LockResult.ok, { s with locked := true })
  else (LockResult.surfaceUnavailable, s)

/-- Modelled from the spec: `Fl_Android_Application::unlock_and_post_screen`
(implementation not in the repository sources): releases the buffer and asks
the platform to composite it, returning the guard to `unlocked`. -/
def unlock_and_post_screen (s : AppState) : AppState :=
  { s with locked := false }

/-- Modelled from the spec: `Fl_Android_Application::screen_is_locked`
(implementation not in the repository sources): advisory lock query. -/
def screen_is_locked (s : AppState) : Bool :=
  s.locked

/-- Modelled from the spec: `Fl_Android_Application::send_timer_index`
(implementation not in the repository sources): writes one byte to the timer
pipe; non-blocking best-effort, the byte is dropped (and logged) when the
pipe is full, never blocking the timer-signal context. `cap` is the
configured pipe capacity. -/
def send_timer_index (cap : Nat) (pipe : List Nat) (ix : Nat) : List Nat :=
  if pipe.length < cap then pipe ++ [ix] else pipe

/-- Modelled from the spec: `Fl_Android_Application::receive_timer_index`
(implementation not in the repository sources): reads exactly one byte from
the timer pipe. -/
def receive_timer_index (pipe : List Nat) : Option (Nat × List Nat) :=
  match pipe with
  | [] => none
  | b :: rest => some (b, rest)

/-- The timer-expiry context sending a whole sequence of slot indices. -/
def sendAllTimer (cap : Nat) (pipe : List Nat) (ixs : List Nat) : List Nat :=
  ixs.foldl (send_timer_index cap) pipe

/-- The poll loop draining the timer pipe by repeated
`receive_timer_index` until empty. -/
def drainTimer (pipe : List Nat) : List Nat :=
  match pipe with
  | [] => []
  | _ :: rest =>
    match receive_timer_index pipe with
    | none => []
    | some (b, _) => b :: drainTimer rest

/-- Repeated strict alternation of `lock_screen` and
`unlock_and_post_screen`, reporting whether every lock attempt succeeded. -/
def lockUnlockIter : Nat → AppState → Bool × AppState
  | 0, s => (true, s)
  | n + 1, s =>
    match lock_screen s with
    | (LockResult.ok, s1) => lockUnlockIter n (unlock_and_post_screen s1)
    | (LockResult.surfaceUnavailable, s1) => (false, s1)

-- ---------------------------------------------------------------------------
-- Helper lemmas shared by the claim theorems
-- ---------------------------------------------------------------------------

theorem decode_cmdCode (c : AppCmd) : decodeCmd (cmdCode c) = some c := by
  cases c <;> rfl

theorem writeAll_eq (cs : List AppCmd) : ∀ p : List Nat,
    writeAll p cs = p ++ cs.map cmdCode := by
  induction cs with
  | nil => intro p; simp [writeAll]
  | cons c cs ih =>
    intro p
    simp only [writeAll, List.foldl_cons, List.map_cons]
    rw [show List.foldl write_cmd (write_cmd p c) cs = writeAll (write_cmd p c) cs from rfl]
    rw [ih, write_cmd, List.append_assoc]
    rfl

theorem readAllCmds_map (cs : List AppCmd) :
    readAllCmds (cs.map cmdCode) = cs := by
  induction cs with
  | nil => rfl
  | cons c cs ih =>
    simp only [List.map_cons, readAllCmds, read_cmd, decode_cmdCode, ih]

theorem runCmds_destroyed (cmds : List AppCmd) : ∀ s : AppState,
    s.destroyRequested = true → runCmds s cmds = s := by
  induction cmds with
  | nil => intro s _; rfl
  | cons c rest ih =>
    intro s h
    simp only [runCmds, h, if_true]
    exact ih s h

theorem execCmd_destroyRequested_of_ne (s : AppState) (c : AppCmd)
    (h : c ≠ AppCmd.destroy) :
    (execCmd s c).destroyRequested = s.destroyRequested := by
  cases c <;>
    simp_all [execCmd, pre_exec_cmd, post_exec_cmd, set_activity_state]

theorem runCmds_cons (s : AppState) (c : AppCmd) (rest : List AppCmd) :
    runCmds s (c :: rest) =
      if s.destroyRequested then runCmds s rest
      else runCmds (execCmd s c) rest := rfl

theorem dispatched_cons (s : AppState) (c : AppCmd) (rest : List AppCmd) :
    dispatched s (c :: rest) =
      if s.destroyRequested then dispatched s rest
      else c :: dispatched (execCmd s c) rest := rfl

theorem runCmds_no_destroy (cmds : List AppCmd) : ∀ s : AppState,
    AppCmd.destroy ∉ cmds →
    (runCmds s cmds).destroyRequested = s.destroyRequested := by
  induction cmds with
  | nil => intro s _; rfl
  | cons c rest ih =>
    intro s h
    have hc : c ≠ AppCmd.destroy := fun he => h (he ▸ List.mem_cons_self c rest)
    have hrest : AppCmd.destroy ∉ rest := fun hm => h (List.mem_cons_of_mem c hm)
    rw [runCmds_cons]
    by_cases hd : s.destroyRequested = true
    · rw [if_pos hd, ih s hrest]
    · rw [if_neg hd, ih (execCmd s c) hrest, execCmd_destroyRequested_of_ne s c hc]

theorem execCmd_destroyed_invariant (s : AppState) (c : AppCmd)
    (h : s.activityState = ActivityState.destroyed → s.destroyRequested = true) :
    (execCmd s c).activityState = ActivityState.destroyed →
    (execCmd s c).destroyRequested = true := by
  cases c <;>
    simp_all [execCmd, pre_exec_cmd, post_exec_cmd, set_activity_state]

theorem runCmds_destroyed_invariant (cmds : List AppCmd) : ∀ s : AppState,
    (s.activityState = ActivityState.destroyed → s.destroyRequested = true) →
    ((runCmds s cmds).activityState = ActivityState.destroyed →
      (runCmds s cmds).destroyRequested = true) := by
  induction cmds with
  | nil => intro s h; exact h
  | cons c rest ih =>
    intro s h
    by_cases hd : s.destroyRequested = true
    · simp only [runCmds, hd, if_true]
      exact ih s h
    · simp only [runCmds, hd, if_false]
      exact ih (execCmd s c) (execCmd_destroyed_invariant s c h)

theorem runCmds_append (l1 l2 : List AppCmd) : ∀ s : AppState,
    runCmds s (l1 ++ l2) = runCmds (runCmds s l1) l2 := by
  induction l1 with
  | nil => intro s; rfl
  | cons c rest ih =>
    intro s
    by_cases hd : s.destroyRequested = true
    · simp only [List.cons_append, runCmds, hd, if_true]
      exact ih s
    · simp only [List.cons_append, runCmds, hd, if_false]
      exact ih (execCmd s c)

theorem execCmd_windowBound_of_ne (s : AppState) (c : AppCmd)
    (h : c ≠ AppCmd.initWindow) (hw : s.windowBound = false) :
    (execCmd s c).windowBound = false := by
  cases c <;>
    simp_all [execCmd, pre_exec_cmd, post_exec_cmd, set_activity_state]

theorem runCmds_windowBound (cmds : List AppCmd) : ∀ s : AppState,
    AppCmd.initWindow ∉ cmds → s.windowBound = false →
    (runCmds s cmds).windowBound = false := by
  induction cmds with
  | nil => intro s _ hw; exact hw
  | cons c rest ih =>
    intro s h hw
    have hc : c ≠ AppCmd.initWindow := fun he => h (he ▸ List.mem_cons_self c rest)
    have hrest : AppCmd.initWindow ∉ rest := fun hm => h (List.mem_cons_of_mem c hm)
    by_cases hd : s.destroyRequested = true
    · simp only [runCmds, hd, if_true]
      exact ih s hrest hw
    · simp only [runCmds, hd, if_false]
      exact ih (execCmd s c) hrest (execCmd_windowBound_of_ne s c hc hw)

theorem dispatched_destroyed (cmds : List AppCmd) : ∀ s : AppState,
    s.destroyRequested = true → dispatched s cmds = [] := by
  induction cmds with
  | nil => intro s _; rfl
  | cons c rest ih =>
    intro s h
    simp only [dispatched, h, if_true]
    exact ih s h

theorem execCmd_destroy_sets (s : AppState) :
    (execCmd s AppCmd.destroy).destroyRequested = true := by
  simp [execCmd, pre_exec_cmd, post_exec_cmd, set_activity_state]

theorem dispatched_upto_destroy (cmds₁ : List AppCmd) :
    ∀ (s : AppState) (cmds₂ : List AppCmd), s.destroyRequested = false →
    AppCmd.destroy ∉ cmds₁ →
    dispatched s (cmds₁ ++ AppCmd.destroy :: cmds₂) = cmds₁ ++ [AppCmd.destroy] := by
  induction cmds₁ with
  | nil =>
    intro s cmds₂ hd _
    have hd' : ¬ s.destroyRequested = true := by rw [hd]; exact Bool.false_ne_true
    rw [List.nil_append, dispatched_cons, if_neg hd',
      dispatched_destroyed cmds₂ _ (execCmd_destroy_sets s)]
    rfl
  | cons c rest ih =>
    intro s cmds₂ hd h
    have hc : c ≠ AppCmd.destroy := fun he => h (he ▸ List.mem_cons_self c rest)
    have hrest : AppCmd.destroy ∉ rest := fun hm => h (List.mem_cons_of_mem c hm)
    have hd2 : (execCmd s c).destroyRequested = false := by
      rw [execCmd_destroyRequested_of_ne s c hc]; exact hd
    have hd' : ¬ s.destroyRequested = true := by rw [hd]; exact Bool.false_ne_true
    rw [List.cons_append, dispatched_cons, if_neg hd',
      ih (execCmd s c) cmds₂ hd2 hrest, List.cons_append]

theorem sendAllTimer_eq (cap : Nat) (ixs : List Nat) : ∀ p : List Nat,
    sendAllTimer cap p ixs = p ++ ixs.take (cap - p.length) := by
  induction ixs with
  | nil => intro p; simp [sendAllTimer]
  | cons ix ixs ih =>
    intro p
    simp only [sendAllTimer, List.foldl_cons]
    rw [show List.foldl (send_timer_index cap) (send_timer_index cap p ix) ixs =
      sendAllTimer cap (send_timer_index cap p ix) ixs from rfl]
    by_cases h : p.length < cap
    · rw [show send_timer_index cap p ix = p ++ [ix] from by
        simp [send_timer_index, h]]
      rw [ih]
      have hl : (p ++ [ix]).length = p.length + 1 := by simp
      rw [hl]
      have ht : cap - p.length = (cap - (p.length + 1)) + 1 := by omega
      rw [ht, List.take_succ_cons, List.append_assoc]
      rfl
    · rw [show send_timer_index cap p ix = p from by simp [send_timer_index, h]]
      rw [ih]
      have ht : cap - p.length = 0 := by omega
      rw [ht]
      simp

theorem drainTimer_eq (pipe : List Nat) : drainTimer pipe = pipe := by
  induction pipe with
  | nil => rfl
  | cons b rest ih =>
    simp only [drainTimer, receive_timer_index, ih]

theorem unlock_restores (s : AppState) (hl : s.locked = false) :
    unlock_and_post_screen { s with locked := true } = s := by
  cases s
  simp_all [unlock_and_post_screen]

theorem lockUnlockIter_fixed (n : Nat) : ∀ s : AppState,
    s.windowBound = true → s.locked = false →
    lockUnlockIter n s = (true, s) := by
  induction n with
  | zero => intro s _ _; rfl
  | succ n ih =>
    intro s hw hl
    have hlock : lock_screen s = (LockResult.ok, { s with locked := true }) := by
      simp [lock_screen, hw]
    simp only [lockUnlockIter, hlock]
    rw [unlock_restores s hl]
    exact ih s hw hl

-- ---------------------------------------------------------------------------
-- Claim theorems
-- ---------------------------------------------------------------------------

/-- C1: every finite sequence of commands written to the command pipe by
`write_cmd` is returned by repeated `read_cmd` exactly, in the same FIFO
order, with no reordering, loss, coalescing or duplication. -/
theorem command_channel_fifo (cs : List AppCmd) :
    readAllCmds (writeAll [] cs) = cs := by
  rw [writeAll_eq, List.nil_append, readAllCmds_map]

/-- C2: when no valid window is bound, `lock_screen` fails with
`SurfaceUnavailable` and changes nothing: the whole guard state is returned
untouched, and in particular `screen_is_locked` remains false when the guard
was unlocked. -/
theorem lock_without_window_fails (s : AppState) (h : s.windowBound = false) :
    lock_screen s = (LockResult.surfaceUnavailable, s) ∧
    screen_is_locked (lock_screen s).2 = screen_is_locked s ∧
    (s.locked = false → screen_is_locked (lock_screen s).2 = false) := by
  refine ⟨by simp [lock_screen, h], by simp [lock_screen, h, screen_is_locked], ?_⟩
  intro hl
  simp [lock_screen, h, screen_is_locked, hl]

/-- Witness for C2: in the initial state no window is bound, and locking
fails with `SurfaceUnavailable`, leaving the state untouched. -/
theorem lock_without_window_fails_witness :
    initState.windowBound = false ∧
    (lock_screen initState = (LockResult.surfaceUnavailable, initState) ∧
     screen_is_locked (lock_screen initState).2 = screen_is_locked initState ∧
     (initState.locked = false → screen_is_locked (lock_screen initState).2 = false)) :=
  ⟨by decide, lock_without_window_fails initState (by decide)⟩

/-- C3: `destroyRequested` is monotone: once set, no sequence of consumed
commands (each with its pre and post hook) ever clears it; and starting from
the initial state, once the activity state is `destroyed` after some prefix
of commands, no extension of that prefix can make the observed state
`resumed` again. -/
theorem destroy_requested_monotone :
    (∀ (s : AppState) (cmds : List AppCmd), s.destroyRequested = true →
      (runCmds s cmds).destroyRequested = true) ∧
    (∀ cmds₁ cmds₂ : List AppCmd,
      (runCmds initState cmds₁).activityState = ActivityState.destroyed →
      (runCmds initState (cmds₁ ++ cmds₂)).activityState ≠ ActivityState.resumed) := by
  constructor
  · intro s cmds h
    rw [runCmds_destroyed cmds s h]
    exact h
  · intro cmds₁ cmds₂ h
    have hbase : initState.activityState = ActivityState.destroyed →
        initState.destroyRequested = true := by
      intro hh; simp [initState] at hh
    have hdr : (runCmds initState cmds₁).destroyRequested = true :=
      runCmds_destroyed_invariant cmds₁ initState hbase h
    rw [runCmds_append cmds₁ cmds₂ initState,
      runCmds_destroyed cmds₂ _ hdr, h]
    decide

/-- Witness for C3 at concrete inputs: after consuming `destroy`, a further
`resume` neither clears `destroyRequested` nor brings the state back to
`resumed`. -/
theorem destroy_requested_monotone_witness :
    (({ initState with destroyRequested := true } : AppState).destroyRequested = true ∧
     (runCmds { initState with destroyRequested := true }
        [AppCmd.resume]).destroyRequested = true) ∧
    ((runCmds initState [AppCmd.destroy]).activityState = ActivityState.destroyed ∧
     (runCmds initState ([AppCmd.destroy] ++ [AppCmd.resume])).activityState ≠
       ActivityState.resumed) :=
  ⟨⟨rfl, destroy_requested_monotone.1 _ [AppCmd.resume] rfl⟩,
   ⟨by decide, destroy_requested_monotone.2 [AppCmd.destroy] [AppCmd.resume] (by decide)⟩⟩

/-- C4: `destroyRequested` stays false until the destroy command is
dequeued; consuming destroy sets it unconditionally (for every state);
once it is set, nothing further is dispatched to user code, though the
remaining pipe content is still drained; hence a queue with destroy in it
dispatches exactly the commands up to and including destroy. -/
theorem destroy_cmd_terminal :
    (∀ (s : AppState) (cmds : List AppCmd), s.destroyRequested = false →
      AppCmd.destroy ∉ cmds → (runCmds s cmds).destroyRequested = false) ∧
    (∀ s : AppState, (execCmd s AppCmd.destroy).destroyRequested = true) ∧
    (∀ (s : AppState) (cmds : List AppCmd), s.destroyRequested = true →
      dispatched s cmds = []) ∧
    (∀ cmds₁ cmds₂ : List AppCmd, AppCmd.destroy ∉ cmds₁ →
      dispatched initState (cmds₁ ++ AppCmd.destroy :: cmds₂) =
        cmds₁ ++ [AppCmd.destroy]) := by
  refine ⟨?_, execCmd_destroy_sets, fun s cmds h => dispatched_destroyed cmds s h, ?_⟩
  · intro s cmds hd h
    rw [runCmds_no_destroy cmds s h]
    exact hd
  · intro cmds₁ cmds₂ h
    exact dispatched_upto_destroy cmds₁ initState cmds₂ rfl h

/-- Witness for C4: the scenario queue window-init, gained-focus, pause,
window-term, destroy followed by a drained resume dispatches exactly the
five commands up to destroy, and destroy sets the flag. -/
theorem destroy_cmd_terminal_witness :
    ((initState.destroyRequested = false ∧
      AppCmd.destroy ∉ [AppCmd.initWindow, AppCmd.gainedFocus] ∧
      (runCmds initState [AppCmd.initWindow, AppCmd.gainedFocus]).destroyRequested = false) ∧
     (execCmd initState AppCmd.destroy).destroyRequested = true) ∧
    ((({ initState with destroyRequested := true } : AppState).destroyRequested = true ∧
      dispatched { initState with destroyRequested := true } [AppCmd.resume] = []) ∧
     (AppCmd.destroy ∉ [AppCmd.initWindow, AppCmd.gainedFocus, AppCmd.pause, AppCmd.termWindow] ∧
      dispatched initState
        ([AppCmd.initWindow, AppCmd.gainedFocus, AppCmd.pause, AppCmd.termWindow] ++
          AppCmd.destroy :: [AppCmd.resume]) =
        [AppCmd.initWindow, AppCmd.gainedFocus, AppCmd.pause, AppCmd.termWindow] ++
          [AppCmd.destroy])) :=
  ⟨⟨⟨rfl, by decide,
     destroy_cmd_terminal.1 initState [AppCmd.initWindow, AppCmd.gainedFocus] rfl (by decide)⟩,
    destroy_cmd_terminal.2.1 initState⟩,
   ⟨⟨rfl, destroy_cmd_terminal.2.2.1 _ [AppCmd.resume] rfl⟩,
    ⟨by decide,
     destroy_cmd_terminal.2.2.2
       [AppCmd.initWindow, AppCmd.gainedFocus, AppCmd.pause, AppCmd.termWindow]
       [AppCmd.resume] (by decide)⟩⟩⟩

/-- C5: after a window-term command is fully processed (post hook included),
and as long as no window-init has been consumed since, the window handle
stays invalid and every `lock_screen` attempt fails with
`SurfaceUnavailable` — at every point of the interval, since the command
suffix is arbitrary. -/
theorem lock_fails_after_term_window (s : AppState) (cmds : List AppCmd)
    (h : AppCmd.initWindow ∉ cmds) :
    (runCmds (execCmd s AppCmd.termWindow) cmds).windowBound = false ∧
    (lock_screen (runCmds (execCmd s AppCmd.termWindow) cmds)).1 =
      LockResult.surfaceUnavailable := by
  have hterm : (execCmd s AppCmd.termWindow).windowBound = false := by
    simp [execCmd, pre_exec_cmd, post_exec_cmd]
  have hrun : (runCmds (execCmd s AppCmd.termWindow) cmds).windowBound = false :=
    runCmds_windowBound cmds _ h hterm
  exact ⟨hrun, by simp [lock_screen, hrun]⟩

/-- Witness for C5: after window-term, through gained-focus and pause (no
window-init), locking still fails with `SurfaceUnavailable`. -/
theorem lock_fails_after_term_window_witness :
    AppCmd.initWindow ∉ [AppCmd.gainedFocus, AppCmd.pause] ∧
    (lock_screen (runCmds (execCmd initState AppCmd.termWindow)
      [AppCmd.gainedFocus, AppCmd.pause])).1 = LockResult.surfaceUnavailable :=
  ⟨by decide,
   (lock_fails_after_term_window initState [AppCmd.gainedFocus, AppCmd.pause] (by decide)).2⟩

/-- C6: sending timer-slot indices on an undrained timer channel then
draining yields exactly the sent indices in FIFO order when their number is
within the pipe capacity; beyond the capacity the excess sends are dropped,
and exactly the non-dropped prefix appears, still in FIFO order. -/
theorem timer_channel_fifo_drop (cap : Nat) (ixs : List Nat) :
    (ixs.length ≤ cap → drainTimer (sendAllTimer cap [] ixs) = ixs) ∧
    drainTimer (sendAllTimer cap [] ixs) = ixs.take cap := by
  have hmain : drainTimer (sendAllTimer cap [] ixs) = ixs.take cap := by
    rw [sendAllTimer_eq, drainTimer_eq]
    simp
  exact ⟨fun h => by rw [hmain, List.take_of_length_le h], hmain⟩

/-- Witness for C6: three indices through a capacity-3 pipe survive intact;
through a capacity-2 pipe only the first two appear. -/
theorem timer_channel_fifo_drop_witness :
    ([5, 6, 7] : List Nat).length ≤ 3 ∧
    drainTimer (sendAllTimer 3 [] [5, 6, 7]) = [5, 6, 7] ∧
    drainTimer (sendAllTimer 2 [] [5, 6, 7]) = ([5, 6, 7] : List Nat).take 2 :=
  ⟨by decide, (timer_channel_fifo_drop 3 [5, 6, 7]).1 (by decide),
   (timer_channel_fifo_drop 2 [5, 6, 7]).2⟩

/-- C7: while a valid window is bound and the guard starts unlocked, each
`lock_screen` succeeds, `unlock_and_post_screen` after a successful lock
restores the guard exactly to its pre-lock state, and the strict
lock/unlock alternation can be repeated any number of times, every lock
succeeding. -/
theorem lock_unlock_roundtrip (n : Nat) (s : AppState)
    (hw : s.windowBound = true) (hl : s.locked = false) :
    (lock_screen s).1 = LockResult.ok ∧
    ((lock_screen s).2).locked = true ∧
    unlock_and_post_screen (lock_screen s).2 = s ∧
    lockUnlockIter n s = (true, s) := by
  have hlock : lock_screen s = (LockResult.ok, { s with locked := true }) := by
    simp [lock_screen, hw]
  refine ⟨by rw [hlock], by rw [hlock], ?_, lockUnlockIter_fixed n s hw hl⟩
  rw [hlock]
  exact unlock_restores s hl

/-- Witness for C7: with a bound window and unlocked guard, five rounds of
lock/unlock succeed and return the original state. -/
theorem lock_unlock_roundtrip_witness :
    (({ initState with windowBound := true } : AppState).windowBound = true ∧
     ({ initState with windowBound := true } : AppState).locked = false) ∧
    ((lock_screen { initState with windowBound := true }).1 = LockResult.ok ∧
     ((lock_screen { initState with windowBound := true }).2).locked = true ∧
     unlock_and_post_screen (lock_screen { initState with windowBound := true }).2 =
       { initState with windowBound := true } ∧
     lockUnlockIter 5 { initState with windowBound := true } =
       (true, { initState with windowBound := true })) :=
  ⟨⟨rfl, rfl⟩, lock_unlock_roundtrip 5 { initState with windowBound := true } rfl rfl⟩

/-- C8: every lifecycle command is accepted from every state, however
out-of-order: processing it simply overwrites the activity state with the
state the command maps to, and no error is raised (the transition is a total
function into states, with no error channel). -/
theorem out_of_order_tolerated (s : AppState) (c : AppCmd) (st : ActivityState)
    (h : cmdState c = some st) :
    (execCmd s c).activityState = st := by
  cases c <;>
    simp_all [cmdState, execCmd, pre_exec_cmd, post_exec_cmd, set_activity_state]

/-- Witness for C8: a resume arriving before any start, in the freshly
created state, is accepted and overwrites the state to `resumed`. -/
theorem out_of_order_tolerated_witness :
    cmdState AppCmd.resume = some ActivityState.resumed ∧
    (execCmd initState AppCmd.resume).activityState = ActivityState.resumed :=
  ⟨rfl, out_of_order_tolerated initState AppCmd.resume ActivityState.resumed rfl⟩

/-- C9: the command vocabulary is a closed enumeration of exactly 16 codes in
source order (codes 0..15), every command is in the enumeration, and every
code is representable as an `int8_t` and round-trips through the byte pipe
unchanged (decoding its code yields the same command). -/
theorem cmd_vocabulary_closed :
    allCmds.map cmdCode = List.range 16 ∧
    allCmds.length = 16 ∧
    (∀ c : AppCmd, c ∈ allCmds) ∧
    (∀ c : AppCmd,
      cmdCode c < 256 ∧
      int8OfNat (cmdCode c) = (cmdCode c : Int) ∧
      decodeCmd (cmdCode c) = some c) := by
  refine ⟨by decide, by decide, ?_, ?_⟩
  · intro c; cases c <;> simp [allCmds]
  · intro c; cases c <;> exact ⟨by decide, by decide, by decide⟩

/-- C10: the reserved looper identifiers are the pairwise-distinct consecutive
values 1, 2, 3, the user range starts at 4, and hence no user-registered
identifier (any value at or above `LOOPER_ID_USER`) collides with a
reserved identifier. -/
theorem looper_ids_distinct :
    LOOPER_ID_MAIN = 1 ∧ LOOPER_ID_INPUT = 2 ∧ LOOPER_ID_TIMER = 3 ∧
    LOOPER_ID_USER = 4 ∧
    (∀ u : Nat, LOOPER_ID_USER ≤ u →
      u ≠ LOOPER_ID_MAIN ∧ u ≠ LOOPER_ID_INPUT ∧ u ≠ LOOPER_ID_TIMER) := by
  refine ⟨rfl, rfl, rfl, rfl, ?_⟩
  intro u hu
  simp only [LOOPER_ID_MAIN, LOOPER_ID_INPUT, LOOPER_ID_TIMER, LOOPER_ID_USER] at *
  omega

/-- Witness for C10 at the concrete user identifier 7. -/
theorem looper_ids_distinct_witness :
    LOOPER_ID_USER ≤ 7 ∧
    (7 ≠ LOOPER_ID_MAIN ∧ 7 ≠ LOOPER_ID_INPUT ∧ 7 ≠ LOOPER_ID_TIMER) :=
  ⟨by decide, looper_ids_distinct.2.2.2.2 7 (by decide)⟩

end FlAndroid
